import Mathlib

/-!
Verification of the batch-schema migration script `transform.py`.

The script reads a JSON document in the legacy "remote_batch" layout
(schema B), reshapes each task record into the tagged-union layout
expected by the current loader, validates the result through the
external loader, and writes it to `<input>.new`.

We embed parsed JSON documents as an inductive type, embed the script's
dictionary lookups as failing operations in the `Except` monad (a failed
lookup models the Python `KeyError` / `TypeError` exceptions), and embed
the script as a pure function from the parsed input document to either
an error or the output document.
-/

/-- A parsed JSON value.  Objects are association lists in insertion
order, matching the order-preserving dictionaries produced by Python's
`json.load`. -/
inductive JSON where
  | null
  | bool (b : Bool)
  | num (n : Int)
  | str (s : String)
  | arr (elems : List JSON)
  | obj (fields : List (String × JSON))

/-- The failure modes of the script: a missing dictionary key
(Python `KeyError`), subscripting a non-dictionary or iterating a
non-sequence (`TypeError`), unpacking a non-pair (`ValueError`), and a
rejection by the external loader used as a validation step. -/
inductive Err where
  | keyError (k : String)
  | typeError
  | valueError
  | schemaError

/-- First-match lookup in an association list; Python dictionaries have
unique keys, for which this coincides with dictionary lookup. -/
def lookupField : List (String × JSON) → String → Option JSON
  | [], _ => none
  | (k', v) :: rest, k => if k' = k then some v else lookupField rest k

/-- `d[k]` on a JSON value: `KeyError` when the key is absent,
`TypeError` when the value is not an object. -/
def getKey (j : JSON) (k : String) : Except Err JSON :=
  match j with
  | .obj fields =>
      match lookupField fields k with
      | some v => .ok v
      | none => .error (.keyError k)
  | _ => .error .typeError

/-- `d.get(k)`-style lookup returning an `Option`; used to embed the
Python membership test `k in d`. -/
def JSON.get? (j : JSON) (k : String) : Option JSON :=
  (getKey j k).toOption

/-- Embeds the Python `is None` test. -/
def JSON.isNull : JSON → Bool
  | .null => true
  | _ => false

/-- Embeds tuple unpacking `tid, task = element`: succeeds exactly on
two-element sequences. -/
def asPair : JSON → Except Err (JSON × JSON)
  | .arr [a, b] => .ok (a, b)
  | _ => .error .valueError

/-- Embeds iterating `for ... in tasks`: the tasks value must be a
sequence. -/
def asList : JSON → Except Err (List JSON)
  | .arr xs => .ok xs
  | _ => .error .typeError

/-- The `parallel_decoder` conditional expression of the script: null
when the key is absent from `task["braket_task"]` or its value is null,
otherwise the inner `["parallel_decoder"]` subscript (which can fail). -/
def pdDefault (bt : JSON) : Except Err JSON :=
  match JSON.get? bt "parallel_decoder" with
  | none => pure JSON.null
  | some pd =>
      if pd.isNull then pure JSON.null
      else getKey pd "parallel_decoder"

/-- The body of the per-task loop of `transform.py`: reads the required
fields out of `task["braket_task"]` in the script's evaluation order,
applies the null default for `parallel_decoder`, and builds the
tagged `BraketTask` record. -/
def convertTask (task : JSON) : Except Err JSON := do
  let bt ← getKey task "braket_task"
  let task_id ← getKey bt "task_id"
  let tirWrap ← getKey bt "task_ir"
  let task_ir ← getKey tirWrap "quera_task_specification"
  let trWrap ← getKey bt "task_result_ir"
  let task_result_ir ← getKey trWrap "task_result_ir"
  let beWrap ← getKey bt "backend"
  let backend ← getKey beWrap "braket_backend"
  let parallel_decoder ← pdDefault bt
  let metadata ← getKey bt "metadata"
  pure (JSON.obj [("bloqade.task.braket.BraketTask", JSON.obj
    [("backend", backend), ("parallel_decoder", parallel_decoder),
     ("task_id", task_id), ("task_result_ir", task_result_ir),
     ("task_ir", task_ir), ("metadata", metadata)])])

/-- One iteration of the loop: unpack `[tid, task]`, convert the task,
and append `[tid, tsk]` to the output list. -/
def convertPair (p : JSON) : Except Err JSON := do
  let (tid, task) ← asPair p
  let tsk ← convertTask task
  pure (JSON.arr [tid, tsk])

/-- The whole loop `for tid, task in tasks`, accumulating `new_tasks`
in order. -/
def convertTasks : List JSON → Except Err (List JSON)
  | [] => .ok []
  | p :: rest => do
      let q ← convertPair p
      let qs ← convertTasks rest
      pure (q :: qs)

/-- The in-memory transformation of `transform.py`: look up
`src["remote_batch"]["tasks"]`, run the loop, and assemble the new
`RemoteBatch` document with `source` and `name` copied from the input
(looked up, as in the script, when the output document is built). -/
def transform (src : JSON) : Except Err JSON := do
  let rb ← getKey src "remote_batch"
  let tasksJ ← getKey rb "tasks"
  let ts ← asList tasksJ
  let newTasks ← convertTasks ts
  let rbS ← getKey src "remote_batch"
  let source ← getKey rbS "source"
  let rbN ← getKey src "remote_batch"
  let name ← getKey rbN "name"
  pure (JSON.obj [("bloqade.task.batch.RemoteBatch", JSON.obj
    [("source", source), ("name", name), ("tasks", JSON.arr newTasks)])])

/-- The script after parsing: transform, then validate the result
through the external loader (`a = loads(json.dumps(new_future))`).
The loader is not part of this repository, so it is a parameter
`loadsOk`; an exception from it is the `schemaError` failure.  The
returned document is the one subsequently written to disk. -/
def migrate (loadsOk : JSON → Bool) (src : JSON) : Except Err JSON := do
  let out ← transform src
  if loadsOk out then pure out else .error .schemaError

/-- `n` spaces. -/
def spaces (n : Nat) : String :=
  String.mk (List.replicate n ' ')

/-- JSON string escaping, modelling the escapes applied by the Python
standard-library serializer for the characters that need them. -/
def escapeJSONChar (c : Char) : String :=
  if c = '"' then "\\\""
  else if c = '\\' then "\\\\"
  else if c = '\n' then "\\n"
  else if c = '\t' then "\\t"
  else if c = '\r' then "\\r"
  else String.mk [c]

/-- Serialize a JSON string literal. -/
def serializeStr (s : String) : String :=
  "\"" ++ String.join (s.data.map escapeJSONChar) ++ "\""

mutual

/-- Models the Python standard-library `json.dump(doc, f, indent=2)`
call of the script: a deterministic pretty-printer with two-space
indentation and the standard item and key separators. -/
def serializeVal (ind : Nat) : JSON → String
  | .null => "null"
  | .bool b => if b then "true" else "false"
  | .num n => toString n
  | .str s => serializeStr s
  | .arr [] => "[]"
  | .arr (x :: xs) =>
      "[\n" ++ serializeItems (ind + 2) x xs ++ "\n" ++ spaces ind ++ "]"
  | .obj [] => "\x7b\x7d"
  | .obj (f :: fs) =>
      "\x7b\n" ++ serializeFields (ind + 2) f fs ++ "\n" ++ spaces ind ++ "\x7d"
termination_by j => sizeOf j

/-- Comma-and-newline separated array items at indentation `ind`. -/
def serializeItems (ind : Nat) : JSON → List JSON → String
  | x, [] => spaces ind ++ serializeVal ind x
  | x, y :: ys =>
      spaces ind ++ serializeVal ind x ++ ",\n" ++ serializeItems ind y ys
termination_by x xs => sizeOf x + sizeOf xs

/-- Comma-and-newline separated object entries at indentation `ind`. -/
def serializeFields (ind : Nat) : (String × JSON) → List (String × JSON) → String
  | (k, v), [] => spaces ind ++ serializeStr k ++ ": " ++ serializeVal ind v
  | (k, v), f :: fs =>
      spaces ind ++ serializeStr k ++ ": " ++ serializeVal ind v ++ ",\n" ++
        serializeFields ind f fs
termination_by f fs => sizeOf f + sizeOf fs

end

/-- The bytes `json.dump(new_future, f, indent=2)` writes for a
document. -/
def serialize (j : JSON) : String :=
  serializeVal 0 j

/-- An observable file-system operation of one script run. -/
inductive FileOp where
  | read (path : String)
  | write (path : String) (content : String)

/-- The file-system trace of one run of the script on a parsed input
document: open/read the input path, and, only when transformation and
loader validation succeed, write the serialized result to the input
path with `".new"` appended. -/
def runMigration (loadsOk : JSON → Bool) (path : String) (input : JSON) :
    List FileOp :=
  FileOp.read path ::
    match migrate loadsOk input with
    | .ok out => [FileOp.write (path ++ ".new") (serialize out)]
    | .error _ => []

/-- The content of the output file, when one is written. -/
def migrateFileContent (loadsOk : JSON → Bool) (src : JSON) : Option String :=
  (migrate loadsOk src).toOption.map serialize

/-- Value of a decimal digit character, if it is one. -/
def digitVal (c : Char) : Option Nat :=
  if c = '0' then some 0 else if c = '1' then some 1 else if c = '2' then some 2
  else if c = '3' then some 3 else if c = '4' then some 4 else if c = '5' then some 5
  else if c = '6' then some 6 else if c = '7' then some 7 else if c = '8' then some 8
  else if c = '9' then some 9 else none

/-- Accumulate a decimal number from a digit list. -/
def natFromDigits : Nat → List Char → Option Nat
  | acc, [] => some acc
  | acc, c :: cs =>
      match digitVal c with
      | some d => natFromDigits (acc * 10 + d) cs
      | none => none

/-- Modelled from the spec: the `integer(source key)` conversion of the
legacy schema A migrator, on the non-negative decimal task-id keys the
legacy mapping uses. -/
def strToInt (s : String) : Option Int :=
  match s.data with
  | [] => none
  | cs => (natFromDigits 0 cs).map Int.ofNat

/-- Modelled from the spec: the legacy schema A migrator script variant
is not among the source files; this is its per-task conversion rule
(`A` → `braket_task` layout), following the spec's rule list and its
concrete scenario: task_id from `integer(source key)`, backend wrapped
as `braket_backend`, `parallel_decoder` defaulting to null when absent,
result and task IR re-wrapped, metadata set to the empty mapping. -/
def convertTaskA (key : String) (task : JSON) : Except Err JSON := do
  let tid ←
    match strToInt key with
    | some n => pure (JSON.num n)
    | none => Except.error Err.valueError
  let task_id ← getKey task "task_id"
  let ht ← getKey task "hardware_task"
  let task_ir ← getKey ht "task_ir"
  let backend ← getKey ht "braket_backend"
  let parallel_decoder := (JSON.get? ht "parallel_decoder").getD JSON.null
  let task_result_ir ← getKey task "task_result_ir"
  pure (JSON.arr [tid, JSON.obj [("braket_task", JSON.obj
    [("backend", JSON.obj [("braket_backend", backend)]),
     ("parallel_decoder", parallel_decoder),
     ("task_id", task_id),
     ("task_result_ir", JSON.obj [("task_result_ir", task_result_ir)]),
     ("task_ir", JSON.obj [("quera_task_specification", task_ir)]),
     ("metadata", JSON.obj [])])]])

/-- Modelled from the spec: the legacy schema A migrator converts every
entry of the top-level mapping in iteration order. -/
def convertTasksA : List (String × JSON) → Except Err (List JSON)
  | [] => .ok []
  | (k, task) :: rest => do
      let q ← convertTaskA k task
      let qs ← convertTasksA rest
      pure (q :: qs)

/-- Modelled from the spec: the task sequence produced by the legacy
schema A migrator from the `hardware_task_shot_results` mapping. -/
def transformATasks (src : JSON) : Except Err (List JSON) := do
  let hts ← getKey src "hardware_task_shot_results"
  match hts with
  | .obj fields => convertTasksA fields
  | _ => Except.error Err.typeError

/-- First element of a `[tid, task]` pair, used to state identifier
preservation. -/
def pairFirst : JSON → Option JSON
  | .arr (x :: _) => some x
  | _ => none

/-- Boolean check that a file operation of a run with input `path`
touches only the documented locations: reads hit exactly the input
path and writes hit exactly the input path with `".new"` appended,
which is distinct from the input path. -/
def fileOpOk (path : String) : FileOp → Bool
  | .read p => p == path
  | .write p _ => (p == path ++ ".new") && (p != path)

/-- A well-formed legacy-B task record without a `parallel_decoder`
key. -/
def taskNoPd : JSON :=
  JSON.obj [("braket_task", JSON.obj
    [("task_id", JSON.str "t1"),
     ("task_ir", JSON.obj [("quera_task_specification", JSON.num 11)]),
     ("task_result_ir", JSON.obj [("task_result_ir", JSON.num 22)]),
     ("backend", JSON.obj [("braket_backend", JSON.str "aquila")]),
     ("metadata", JSON.obj [])])]

/-- The record `taskNoPd` converts to. -/
def taskNoPdOut : JSON :=
  JSON.obj [("bloqade.task.braket.BraketTask", JSON.obj
    [("backend", JSON.str "aquila"), ("parallel_decoder", JSON.null),
     ("task_id", JSON.str "t1"), ("task_result_ir", JSON.num 22),
     ("task_ir", JSON.num 11), ("metadata", JSON.obj [])])]

/-- A well-formed legacy-B task record with a non-null
`parallel_decoder` and non-empty metadata. -/
def taskFull : JSON :=
  JSON.obj [("braket_task", JSON.obj
    [("task_id", JSON.str "t2"),
     ("task_ir", JSON.obj [("quera_task_specification", JSON.num 11)]),
     ("task_result_ir", JSON.obj [("task_result_ir", JSON.num 22)]),
     ("backend", JSON.obj [("braket_backend", JSON.str "aquila")]),
     ("parallel_decoder", JSON.obj [("parallel_decoder", JSON.num 5)]),
     ("metadata", JSON.obj [("n_shots", JSON.num 100)])])]

/-- A legacy-B task record with every required field except
`metadata`. -/
def taskNoMetadata : JSON :=
  JSON.obj [("braket_task", JSON.obj
    [("task_id", JSON.str "t3"),
     ("task_ir", JSON.obj [("quera_task_specification", JSON.num 11)]),
     ("task_result_ir", JSON.obj [("task_result_ir", JSON.num 22)]),
     ("backend", JSON.obj [("braket_backend", JSON.str "aquila")])])]

/-- A legacy-B task record whose `parallel_decoder` is non-null but is
not a mapping with an inner `parallel_decoder` key. -/
def taskBadPd : JSON :=
  JSON.obj [("braket_task", JSON.obj
    [("task_id", JSON.str "t4"),
     ("task_ir", JSON.obj [("quera_task_specification", JSON.num 11)]),
     ("task_result_ir", JSON.obj [("task_result_ir", JSON.num 22)]),
     ("backend", JSON.obj [("braket_backend", JSON.str "aquila")]),
     ("parallel_decoder", JSON.num 3),
     ("metadata", JSON.obj [])])]

/-- A well-formed legacy-B task record whose inner `task_id` is the
string "abc", used to exhibit the absence of a consistency check
against the outer pair identifier. -/
def taskIdMismatch : JSON :=
  JSON.obj [("braket_task", JSON.obj
    [("task_id", JSON.str "abc"),
     ("task_ir", JSON.obj [("quera_task_specification", JSON.num 11)]),
     ("task_result_ir", JSON.obj [("task_result_ir", JSON.num 22)]),
     ("backend", JSON.obj [("braket_backend", JSON.str "aquila")]),
     ("metadata", JSON.obj [])])]

/-- A well-formed legacy-B input document with one task. -/
def docOk : JSON :=
  JSON.obj [("remote_batch", JSON.obj
    [("source", JSON.str "builder"), ("name", JSON.null),
     ("tasks", JSON.arr [JSON.arr [JSON.num 0, taskNoPd]])])]

/-- The document the migration produces from `docOk`. -/
def docOkOut : JSON :=
  JSON.obj [("bloqade.task.batch.RemoteBatch", JSON.obj
    [("source", JSON.str "builder"), ("name", JSON.null),
     ("tasks", JSON.arr [JSON.arr [JSON.num 0, taskNoPdOut]])])]

/-- A legacy-B input whose single task is missing the required
`task_ir` field. -/
def docMissingField : JSON :=
  JSON.obj [("remote_batch", JSON.obj
    [("source", JSON.null), ("name", JSON.null),
     ("tasks", JSON.arr [JSON.arr [JSON.num 0,
        JSON.obj [("braket_task", JSON.obj [("task_id", JSON.str "t9")])]]])])]

/-- The concrete legacy schema A scenario input of the spec. -/
def legacyAInput : JSON :=
  JSON.obj [("hardware_task_shot_results", JSON.obj [("7", JSON.obj
    [("task_id", JSON.str "abc123"),
     ("hardware_task", JSON.obj
       [("task_ir", JSON.obj [("x", JSON.num 1)]),
        ("braket_backend", JSON.str "aquila")]),
     ("task_result_ir", JSON.obj [("y", JSON.num 2)])])])]

/-- The task entry the spec requires for `legacyAInput`. -/
def legacyAExpected : JSON :=
  JSON.arr [JSON.num 7, JSON.obj [("braket_task", JSON.obj
    [("backend", JSON.obj [("braket_backend", JSON.str "aquila")]),
     ("parallel_decoder", JSON.null),
     ("task_id", JSON.str "abc123"),
     ("task_result_ir", JSON.obj [("task_result_ir",
        JSON.obj [("y", JSON.num 2)])]),
     ("task_ir", JSON.obj [("quera_task_specification",
        JSON.obj [("x", JSON.num 1)])]),
     ("metadata", JSON.obj [])])]]

/-! ## Helper lemmas about the `Except` embedding -/

theorem ok_bind {α β : Type} (a : α) (f : α → Except Err β) :
    (Except.ok a >>= f : Except Err β) = f a := rfl

theorem error_bind {α β : Type} (e : Err) (f : α → Except Err β) :
    ((Except.error e : Except Err α) >>= f) = Except.error e := rfl

theorem toOption_eq_some_iff {α : Type} {x : Except Err α} {v : α} :
    x.toOption = some v ↔ x = .ok v := by
  cases x <;> simp [Except.toOption]

theorem get?_eq_some_iff {j : JSON} {k : String} {v : JSON} :
    j.get? k = some v ↔ getKey j k = .ok v := by
  unfold JSON.get?
  exact toOption_eq_some_iff

theorem getKey_error_of_get?_none {j : JSON} {k : String} (h : j.get? k = none) :
    ∃ e, getKey j k = .error e := by
  cases hk : getKey j k with
  | error e => exact ⟨e, rfl⟩
  | ok v =>
      unfold JSON.get? at h
      rw [hk] at h
      exact Option.noConfusion h

theorem get?_eq_none_of_getKey_error {j : JSON} {k : String} {e : Err}
    (h : getKey j k = .error e) : j.get? k = none := by
  unfold JSON.get?
  rw [h]
  rfl

theorem isNull_eq_false {j : JSON} (h : j ≠ JSON.null) : j.isNull = false := by
  cases j
  · exact absurd rfl h
  all_goals rfl

theorem pdDefault_ok_iff {bt pd : JSON} :
    pdDefault bt = .ok pd ↔
      (JSON.get? bt "parallel_decoder" = none ∧ pd = JSON.null) ∨
      (∃ pw, JSON.get? bt "parallel_decoder" = some pw ∧ pw = JSON.null ∧
        pd = JSON.null) ∨
      (∃ pw, JSON.get? bt "parallel_decoder" = some pw ∧ pw ≠ JSON.null ∧
        getKey pw "parallel_decoder" = .ok pd) := by
  unfold pdDefault
  cases hg : JSON.get? bt "parallel_decoder" with
  | none => simp [pure, Except.pure, eq_comm]
  | some pw =>
      cases pw
      all_goals simp [JSON.isNull, pure, Except.pure, eq_comm]

theorem asPair_ok_inv {p a b : JSON} (h : asPair p = .ok (a, b)) :
    p = JSON.arr [a, b] := by
  cases p with
  | arr xs =>
      rcases xs with _ | ⟨x, _ | ⟨y, _ | ⟨z, rest⟩⟩⟩
      · exact Except.noConfusion h
      · exact Except.noConfusion h
      · unfold asPair at h
        injection h with h
        injection h with h1 h2
        subst h1
        subst h2
        rfl
      · exact Except.noConfusion h
  | null => exact Except.noConfusion h
  | bool b => exact Except.noConfusion h
  | num n => exact Except.noConfusion h
  | str s => exact Except.noConfusion h
  | obj fields => exact Except.noConfusion h

theorem asList_ok_inv {j : JSON} {xs : List JSON} (h : asList j = .ok xs) :
    j = JSON.arr xs := by
  cases j with
  | arr ys => unfold asList at h; injection h with h; rw [h]
  | null => exact Except.noConfusion h
  | bool b => exact Except.noConfusion h
  | num n => exact Except.noConfusion h
  | str s => exact Except.noConfusion h
  | obj fields => exact Except.noConfusion h

theorem convertTask_eq {task bt tid tirW tir trW tr beW be pd md : JSON}
    (hbt : getKey task "braket_task" = .ok bt)
    (htid : getKey bt "task_id" = .ok tid)
    (htirW : getKey bt "task_ir" = .ok tirW)
    (htir : getKey tirW "quera_task_specification" = .ok tir)
    (htrW : getKey bt "task_result_ir" = .ok trW)
    (htr : getKey trW "task_result_ir" = .ok tr)
    (hbeW : getKey bt "backend" = .ok beW)
    (hbe : getKey beW "braket_backend" = .ok be)
    (hpd : pdDefault bt = .ok pd)
    (hmd : getKey bt "metadata" = .ok md) :
    convertTask task = .ok (JSON.obj [("bloqade.task.braket.BraketTask", JSON.obj
      [("backend", be), ("parallel_decoder", pd), ("task_id", tid),
       ("task_result_ir", tr), ("task_ir", tir), ("metadata", md)])]) := by
  simp only [convertTask, hbt, htid, htirW, htir, htrW, htr, hbeW, hbe, hpd, hmd,
    ok_bind]
  rfl

theorem convertTask_ok_inv {task out : JSON} (h : convertTask task = .ok out) :
    ∃ bt tid tirW tir trW tr beW be pd md,
      getKey task "braket_task" = .ok bt ∧
      getKey bt "task_id" = .ok tid ∧
      getKey bt "task_ir" = .ok tirW ∧
      getKey tirW "quera_task_specification" = .ok tir ∧
      getKey bt "task_result_ir" = .ok trW ∧
      getKey trW "task_result_ir" = .ok tr ∧
      getKey bt "backend" = .ok beW ∧
      getKey beW "braket_backend" = .ok be ∧
      pdDefault bt = .ok pd ∧
      getKey bt "metadata" = .ok md ∧
      out = JSON.obj [("bloqade.task.braket.BraketTask", JSON.obj
        [("backend", be), ("parallel_decoder", pd), ("task_id", tid),
         ("task_result_ir", tr), ("task_ir", tir), ("metadata", md)])] := by
  unfold convertTask at h
  cases h1 : getKey task "braket_task" with
  | error e => simp only [h1, error_bind] at h; exact Except.noConfusion h
  | ok bt =>
  simp only [h1, ok_bind] at h
  cases h2 : getKey bt "task_id" with
  | error e => simp only [h2, error_bind] at h; exact Except.noConfusion h
  | ok tid =>
  simp only [h2, ok_bind] at h
  cases h3 : getKey bt "task_ir" with
  | error e => simp only [h3, error_bind] at h; exact Except.noConfusion h
  | ok tirW =>
  simp only [h3, ok_bind] at h
  cases h4 : getKey tirW "quera_task_specification" with
  | error e => simp only [h4, error_bind] at h; exact Except.noConfusion h
  | ok tir =>
  simp only [h4, ok_bind] at h
  cases h5 : getKey bt "task_result_ir" with
  | error e => simp only [h5, error_bind] at h; exact Except.noConfusion h
  | ok trW =>
  simp only [h5, ok_bind] at h
  cases h6 : getKey trW "task_result_ir" with
  | error e => simp only [h6, error_bind] at h; exact Except.noConfusion h
  | ok tr =>
  simp only [h6, ok_bind] at h
  cases h7 : getKey bt "backend" with
  | error e => simp only [h7, error_bind] at h; exact Except.noConfusion h
  | ok beW =>
  simp only [h7, ok_bind] at h
  cases h8 : getKey beW "braket_backend" with
  | error e => simp only [h8, error_bind] at h; exact Except.noConfusion h
  | ok be =>
  simp only [h8, ok_bind] at h
  cases h9 : pdDefault bt with
  | error e => simp only [h9, error_bind] at h; exact Except.noConfusion h
  | ok pd =>
  simp only [h9, ok_bind] at h
  cases h10 : getKey bt "metadata" with
  | error e => simp only [h10, error_bind] at h; exact Except.noConfusion h
  | ok md =>
  simp only [h10, ok_bind] at h
  injection h with h
  exact ⟨bt, tid, tirW, tir, trW, tr, beW, be, pd, md,
    rfl, h2, h3, h4, h5, h6, h7, h8, h9, h10, h.symm⟩

theorem convertPair_ok_inv {p q : JSON} (h : convertPair p = .ok q) :
    ∃ tid task tsk, p = JSON.arr [tid, task] ∧ convertTask task = .ok tsk ∧
      q = JSON.arr [tid, tsk] := by
  unfold convertPair at h
  cases hp : asPair p with
  | error e => simp only [hp, error_bind] at h; exact Except.noConfusion h
  | ok pr =>
  obtain ⟨tid, task⟩ := pr
  simp only [hp, ok_bind] at h
  cases ht : convertTask task with
  | error e => simp only [ht, error_bind] at h; exact Except.noConfusion h
  | ok tsk =>
  simp only [ht, ok_bind] at h
  injection h with h
  exact ⟨tid, task, tsk, asPair_ok_inv hp, ht, h.symm⟩

theorem convertPair_eq {tid task tsk : JSON} (h : convertTask task = .ok tsk) :
    convertPair (JSON.arr [tid, task]) = .ok (JSON.arr [tid, tsk]) := by
  simp only [convertPair, asPair, ok_bind, h]
  rfl

theorem convertTasks_ok_cons_inv {p : JSON} {rest qs}
    (h : convertTasks (p :: rest) = .ok qs) :
    ∃ q qs', convertPair p = .ok q ∧ convertTasks rest = .ok qs' ∧
      qs = q :: qs' := by
  unfold convertTasks at h
  cases hq : convertPair p with
  | error e => simp only [hq, error_bind] at h; exact Except.noConfusion h
  | ok q =>
  simp only [hq, ok_bind] at h
  cases hr : convertTasks rest with
  | error e => simp only [hr, error_bind] at h; exact Except.noConfusion h
  | ok qs' =>
  simp only [hr, ok_bind] at h
  injection h with h
  exact ⟨q, qs', rfl, rfl, h.symm⟩

theorem convertTasks_map_pairFirst {ts qs : List JSON}
    (h : convertTasks ts = .ok qs) :
    qs.map pairFirst = ts.map pairFirst := by
  induction ts generalizing qs with
  | nil =>
      unfold convertTasks at h
      injection h with h
      rw [← h]
  | cons p rest ih =>
      obtain ⟨q, qs', hq, hrest, rfl⟩ := convertTasks_ok_cons_inv h
      obtain ⟨tid, task, tsk, rfl, ht, rfl⟩ := convertPair_ok_inv hq
      simp [pairFirst, ih hrest]

theorem convertTasks_length {ts qs : List JSON} (h : convertTasks ts = .ok qs) :
    qs.length = ts.length := by
  have hm := convertTasks_map_pairFirst h
  have h1 : (qs.map pairFirst).length = (ts.map pairFirst).length := by rw [hm]
  simpa using h1

theorem convertTasks_error_of_mem {ts : List JSON} {p : JSON}
    (hp : p ∈ ts) (hfail : ∀ q, convertPair p ≠ .ok q) :
    ∃ e, convertTasks ts = .error e := by
  induction ts with
  | nil => cases hp
  | cons hd rest ih =>
      cases hhd : convertPair hd with
      | error e => exact ⟨e, by simp only [convertTasks, hhd, error_bind]⟩
      | ok q =>
          cases hp with
          | head => exact absurd hhd (hfail q)
          | tail _ hp' =>
              obtain ⟨e, he⟩ := ih hp'
              exact ⟨e, by simp only [convertTasks, hhd, ok_bind, he, error_bind]⟩

theorem transform_eq {src rb s n : JSON} {ts qs : List JSON}
    (h1 : getKey src "remote_batch" = .ok rb)
    (h2 : getKey rb "tasks" = .ok (JSON.arr ts))
    (h3 : convertTasks ts = .ok qs)
    (h4 : getKey rb "source" = .ok s)
    (h5 : getKey rb "name" = .ok n) :
    transform src = .ok (JSON.obj [("bloqade.task.batch.RemoteBatch", JSON.obj
      [("source", s), ("name", n), ("tasks", JSON.arr qs)])]) := by
  simp only [transform, h1, h2, asList, h3, h4, h5, ok_bind]
  rfl

theorem transform_ok_inv {src out : JSON} (h : transform src = .ok out) :
    ∃ rb ts qs s n,
      getKey src "remote_batch" = .ok rb ∧
      getKey rb "tasks" = .ok (JSON.arr ts) ∧
      convertTasks ts = .ok qs ∧
      getKey rb "source" = .ok s ∧
      getKey rb "name" = .ok n ∧
      out = JSON.obj [("bloqade.task.batch.RemoteBatch", JSON.obj
        [("source", s), ("name", n), ("tasks", JSON.arr qs)])] := by
  unfold transform at h
  cases h1 : getKey src "remote_batch" with
  | error e => simp only [h1, error_bind] at h; exact Except.noConfusion h
  | ok rb =>
  simp only [h1, ok_bind] at h
  cases h2 : getKey rb "tasks" with
  | error e => simp only [h2, error_bind] at h; exact Except.noConfusion h
  | ok tasksJ =>
  simp only [h2, ok_bind] at h
  cases h3 : asList tasksJ with
  | error e => simp only [h3, error_bind] at h; exact Except.noConfusion h
  | ok ts =>
  simp only [h3, ok_bind] at h
  cases h4 : convertTasks ts with
  | error e => simp only [h4, error_bind] at h; exact Except.noConfusion h
  | ok qs =>
  simp only [h4, ok_bind] at h
  cases h5 : getKey rb "source" with
  | error e => simp only [h5, error_bind] at h; exact Except.noConfusion h
  | ok s =>
  simp only [h5, ok_bind] at h
  cases h6 : getKey rb "name" with
  | error e => simp only [h6, error_bind] at h; exact Except.noConfusion h
  | ok n =>
  simp only [h6, ok_bind] at h
  injection h with h
  refine ⟨rb, ts, qs, s, n, rfl, ?_, h4, h5, h6, h.symm⟩
  rw [asList_ok_inv h3] at h2
  exact h2

theorem migrate_ok_inv {loadsOk : JSON → Bool} {src out : JSON}
    (h : migrate loadsOk src = .ok out) :
    transform src = .ok out ∧ loadsOk out = true := by
  unfold migrate at h
  cases ht : transform src with
  | error e => simp only [ht, error_bind] at h; exact Except.noConfusion h
  | ok o =>
  simp only [ht, ok_bind] at h
  cases hl : loadsOk o with
  | false => simp only [hl, Bool.false_eq_true, if_false] at h; exact Except.noConfusion h
  | true =>
      simp only [hl, if_true] at h
      injection h with h
      subst h
      exact ⟨rfl, hl⟩

theorem migrate_error_of_transform_error {loadsOk : JSON → Bool} {src : JSON}
    {e : Err} (h : transform src = .error e) :
    migrate loadsOk src = .error e := by
  simp only [migrate, h, error_bind]

theorem migrate_error_of_not_ok {loadsOk : JSON → Bool} {src : JSON}
    (h : ∀ out, transform src ≠ .ok out) :
    ∃ e, migrate loadsOk src = .error e := by
  cases ht : transform src with
  | error e => exact ⟨e, migrate_error_of_transform_error ht⟩
  | ok o => exact absurd ht (h o)

/-! ## Claim theorems -/

/-- C1: for every well-formed legacy-B task record (a `braket_task`
containing `task_id`, `task_ir.quera_task_specification`,
`task_result_ir.task_result_ir`, `backend.braket_backend`, and
`metadata`), the converted record is exactly the per-task rule:
`backend`, `task_ir`, `task_result_ir`, `task_id` and `metadata` are the
unwrapped source values copied verbatim, and `parallel_decoder` is the
inner `parallel_decoder` value when the key is present and non-null,
and null otherwise. -/
theorem convertTask_follows_conversion_rule
    {task bt tid tirW tir trW tr beW be pd md : JSON}
    (hbt : getKey task "braket_task" = .ok bt)
    (htid : getKey bt "task_id" = .ok tid)
    (htirW : getKey bt "task_ir" = .ok tirW)
    (htir : getKey tirW "quera_task_specification" = .ok tir)
    (htrW : getKey bt "task_result_ir" = .ok trW)
    (htr : getKey trW "task_result_ir" = .ok tr)
    (hbeW : getKey bt "backend" = .ok beW)
    (hbe : getKey beW "braket_backend" = .ok be)
    (hpd : (JSON.get? bt "parallel_decoder" = none ∧ pd = JSON.null) ∨
      (∃ pw, JSON.get? bt "parallel_decoder" = some pw ∧ pw = JSON.null ∧
        pd = JSON.null) ∨
      (∃ pw, JSON.get? bt "parallel_decoder" = some pw ∧ pw ≠ JSON.null ∧
        getKey pw "parallel_decoder" = .ok pd))
    (hmd : getKey bt "metadata" = .ok md) :
    convertTask task = .ok (JSON.obj [("bloqade.task.braket.BraketTask", JSON.obj
      [("backend", be), ("parallel_decoder", pd), ("task_id", tid),
       ("task_result_ir", tr), ("task_ir", tir), ("metadata", md)])]) :=
  convertTask_eq hbt htid htirW htir htrW htr hbeW hbe
    (pdDefault_ok_iff.mpr hpd) hmd

/-- C1 witness: the rule evaluated on a concrete record with a non-null
`parallel_decoder`. -/
theorem convertTask_follows_conversion_rule_witness :
    convertTask taskFull = .ok (JSON.obj
      [("bloqade.task.braket.BraketTask", JSON.obj
        [("backend", JSON.str "aquila"), ("parallel_decoder", JSON.num 5),
         ("task_id", JSON.str "t2"), ("task_result_ir", JSON.num 22),
         ("task_ir", JSON.num 11),
         ("metadata", JSON.obj [("n_shots", JSON.num 100)])])]) :=
  convertTask_follows_conversion_rule rfl rfl rfl rfl rfl rfl rfl rfl
    (Or.inr (Or.inr ⟨JSON.obj [("parallel_decoder", JSON.num 5)], rfl,
      fun h => JSON.noConfusion h, rfl⟩)) rfl

/-- C3 counterexample: on a task record with every required field except
`metadata`, the conversion raises a key-lookup error (it does not
default `metadata` to the empty mapping, contrary to the claim that it
must not raise). -/
theorem convertTask_missing_metadata_cex :
    convertTask taskNoMetadata = .error (Err.keyError "metadata") := rfl

/-- C3 amended: for every task record whose `braket_task` lacks a
`metadata` key, the conversion raises an error and produces no output
record; the empty-mapping default for `metadata` exists only in the
legacy schema A variant, not in this script. -/
theorem convertTask_errors_without_metadata {task bt : JSON}
    (hbt : getKey task "braket_task" = .ok bt)
    (hmd : JSON.get? bt "metadata" = none) :
    ∃ e, convertTask task = .error e := by
  cases hc : convertTask task with
  | error e => exact ⟨e, rfl⟩
  | ok out =>
      obtain ⟨bt', tid, tirW, tir, trW, tr, beW, be, pd, md,
        hbt', _, _, _, _, _, _, _, _, hmd', _⟩ := convertTask_ok_inv hc
      rw [hbt] at hbt'
      injection hbt' with hb
      subst hb
      have hsome := get?_eq_some_iff.mpr hmd'
      rw [hsome] at hmd
      exact Option.noConfusion hmd

/-- C3 amended witness: the concrete metadata-less record errors. -/
theorem convertTask_errors_without_metadata_witness :
    ∃ e, convertTask taskNoMetadata = .error e :=
  convertTask_errors_without_metadata rfl rfl

/-- C9: when `braket_task` has a `parallel_decoder` key whose value is
non-null but carries no inner `parallel_decoder` entry, the conversion
raises an error instead of producing null; the null default applies
only when the key is absent or its value is exactly null. -/
theorem convertTask_pd_requires_inner {task bt pw : JSON}
    (hbt : getKey task "braket_task" = .ok bt)
    (hpw : JSON.get? bt "parallel_decoder" = some pw)
    (hnn : pw ≠ JSON.null)
    (hno : JSON.get? pw "parallel_decoder" = none) :
    ∃ e, convertTask task = .error e := by
  cases hc : convertTask task with
  | error e => exact ⟨e, rfl⟩
  | ok out =>
      obtain ⟨bt', tid, tirW, tir, trW, tr, beW, be, pd, md,
        hbt', _, _, _, _, _, _, _, hpd', _, _⟩ := convertTask_ok_inv hc
      rw [hbt] at hbt'
      injection hbt' with hb
      subst hb
      rcases pdDefault_ok_iff.mp hpd' with ⟨hnone, _⟩ | ⟨pw', hsome, hnull, _⟩ |
        ⟨pw', hsome, _, hinner⟩
      · rw [hpw] at hnone
        exact Option.noConfusion hnone
      · rw [hpw] at hsome
        injection hsome with hp
        subst hp
        exact absurd hnull hnn
      · rw [hpw] at hsome
        injection hsome with hp
        subst hp
        have hsome2 := get?_eq_some_iff.mpr hinner
        rw [hsome2] at hno
        exact Option.noConfusion hno

/-- C9 witness: the concrete record whose `parallel_decoder` is the
number 3 errors. -/
theorem convertTask_pd_requires_inner_witness :
    ∃ e, convertTask taskBadPd = .error e :=
  convertTask_pd_requires_inner rfl rfl
    (fun h => JSON.noConfusion h) rfl

/-- C10: the outer pair identifier and the inner `braket_task.task_id`
are handled independently: the output pair's first element is the input
pair's first element unchanged (no coercion), the output record's
`task_id` is the inner `task_id`, and no hypothesis relates the two. -/
theorem convertPair_ids_independent
    {tid task bt itid tirW tir trW tr beW be pd md : JSON}
    (hbt : getKey task "braket_task" = .ok bt)
    (hitid : getKey bt "task_id" = .ok itid)
    (htirW : getKey bt "task_ir" = .ok tirW)
    (htir : getKey tirW "quera_task_specification" = .ok tir)
    (htrW : getKey bt "task_result_ir" = .ok trW)
    (htr : getKey trW "task_result_ir" = .ok tr)
    (hbeW : getKey bt "backend" = .ok beW)
    (hbe : getKey beW "braket_backend" = .ok be)
    (hpd : pdDefault bt = .ok pd)
    (hmd : getKey bt "metadata" = .ok md) :
    convertPair (JSON.arr [tid, task]) = .ok (JSON.arr [tid, JSON.obj
      [("bloqade.task.braket.BraketTask", JSON.obj
        [("backend", be), ("parallel_decoder", pd), ("task_id", itid),
         ("task_result_ir", tr), ("task_ir", tir), ("metadata", md)])]]) :=
  convertPair_eq (convertTask_eq hbt hitid htirW htir htrW htr hbeW hbe hpd hmd)

/-- C10 witness: an outer identifier (the string "5") disagreeing with
the inner `task_id` (the string "abc") is preserved verbatim on both
sides, with no coercion and no consistency check. -/
theorem convertPair_ids_independent_witness :
    convertPair (JSON.arr [JSON.str "5", taskIdMismatch]) =
      .ok (JSON.arr [JSON.str "5", JSON.obj
        [("bloqade.task.braket.BraketTask", JSON.obj
          [("backend", JSON.str "aquila"), ("parallel_decoder", JSON.null),
           ("task_id", JSON.str "abc"), ("task_result_ir", JSON.num 22),
           ("task_ir", JSON.num 11), ("metadata", JSON.obj [])])]]) ∧
    JSON.str "5" ≠ JSON.str "abc" :=
  ⟨convertPair_ids_independent rfl rfl rfl rfl rfl rfl
      rfl rfl rfl rfl,
   fun h => by injection h with h; exact absurd h (by decide)⟩

theorem convertPair_ok_of_mem {ts : List JSON} {qs : List JSON}
    (h : convertTasks ts = .ok qs) {p : JSON} (hp : p ∈ ts) :
    ∃ q, convertPair p = .ok q := by
  induction ts generalizing qs with
  | nil => cases hp
  | cons hd rest ih =>
      obtain ⟨q, qs', hq, hrest, _⟩ := convertTasks_ok_cons_inv h
      cases hp with
      | head => exact ⟨q, hq⟩
      | tail _ hp' => exact ih hrest hp'

/-- C4: for every well-formed legacy-B input, the output task sequence
has the same length as `remote_batch.tasks`, preserves its order of
first components, and carries exactly the same identifiers: none
duplicated, dropped, or invented. -/
theorem transform_preserves_ids {src out rb : JSON} {ts : List JSON}
    (h : transform src = .ok out)
    (hrb : getKey src "remote_batch" = .ok rb)
    (hts : getKey rb "tasks" = .ok (JSON.arr ts)) :
    ∃ s n qs, out = JSON.obj [("bloqade.task.batch.RemoteBatch", JSON.obj
        [("source", s), ("name", n), ("tasks", JSON.arr qs)])] ∧
      qs.length = ts.length ∧
      qs.map pairFirst = ts.map pairFirst ∧
      ∀ x, x ∈ qs.map pairFirst ↔ x ∈ ts.map pairFirst := by
  obtain ⟨rb', ts', qs, s, n, hrb', hts', hconv, _, _, hout⟩ := transform_ok_inv h
  rw [hrb] at hrb'
  injection hrb' with e1
  subst e1
  rw [hts] at hts'
  injection hts' with e2
  injection e2 with e3
  subst e3
  refine ⟨s, n, qs, hout, convertTasks_length hconv,
    convertTasks_map_pairFirst hconv, fun x => ?_⟩
  rw [convertTasks_map_pairFirst hconv]

/-- C4 witness: identifier preservation on the concrete document. -/
theorem transform_preserves_ids_witness :
    ∃ s n qs, docOkOut = JSON.obj [("bloqade.task.batch.RemoteBatch", JSON.obj
        [("source", s), ("name", n), ("tasks", JSON.arr qs)])] ∧
      qs.length = [JSON.arr [JSON.num 0, taskNoPd]].length ∧
      qs.map pairFirst = [JSON.arr [JSON.num 0, taskNoPd]].map pairFirst ∧
      ∀ x, x ∈ qs.map pairFirst ↔
        x ∈ [JSON.arr [JSON.num 0, taskNoPd]].map pairFirst :=
  @transform_preserves_ids docOk docOkOut
    (JSON.obj [("source", JSON.str "builder"), ("name", JSON.null),
      ("tasks", JSON.arr [JSON.arr [JSON.num 0, taskNoPd]])])
    [JSON.arr [JSON.num 0, taskNoPd]] rfl rfl rfl

/-- C5: the written output is a deterministic function of the parsed
input document alone, so two runs of the migration on the same
unchanged input produce byte-identical output files. -/
theorem migrate_deterministic (loadsOk : JSON → Bool) (src : JSON)
    {s1 s2 : String}
    (h1 : migrateFileContent loadsOk src = some s1)
    (h2 : migrateFileContent loadsOk src = some s2) : s1 = s2 := by
  rw [h1] at h2
  injection h2

/-- C5 witness: two concrete runs agree. -/
theorem migrate_deterministic_witness :
    serialize docOkOut = serialize docOkOut :=
  migrate_deterministic (fun _ => true) docOk rfl rfl

/-- C6: the legacy schema A migrator maps the spec's concrete scenario
input to exactly the required single task entry. -/
theorem transformA_concrete_scenario :
    transformATasks legacyAInput = .ok [legacyAExpected] := rfl

/-- C7: a run never writes to the input path: every read in the trace
is of the input path and every write is to exactly the input path with
`".new"` appended, which differs from the input path. -/
theorem runMigration_touches_only_new (loadsOk : JSON → Bool) (path : String)
    (input : JSON) :
    ((runMigration loadsOk path input).all (fileOpOk path)) = true := by
  have hne : path ++ ".new" ≠ path := by
    intro h
    have h2 := congrArg String.length h
    rw [String.length_append] at h2
    have h3 : ".new".length = 4 := rfl
    omega
  unfold runMigration
  cases migrate loadsOk input with
  | ok out => simp [fileOpOk, beq_self_eq_true, bne_iff_ne, hne]
  | error e => simp [fileOpOk, beq_self_eq_true]

/-- C8: the output document is exactly the tagged `RemoteBatch` with
`source` and `name` copied unchanged from `remote_batch.source` and
`remote_batch.name`, and with no top-level fields besides `source`,
`name` and `tasks`. -/
theorem transform_output_top_level {src out : JSON}
    (h : transform src = .ok out) :
    ∃ rb s n qs, getKey src "remote_batch" = .ok rb ∧
      getKey rb "source" = .ok s ∧ getKey rb "name" = .ok n ∧
      out = JSON.obj [("bloqade.task.batch.RemoteBatch", JSON.obj
        [("source", s), ("name", n), ("tasks", JSON.arr qs)])] := by
  obtain ⟨rb, ts, qs, s, n, h1, _, _, h4, h5, hout⟩ := transform_ok_inv h
  exact ⟨rb, s, n, qs, h1, h4, h5, hout⟩

/-- C8 witness: top-level assembly on the concrete document. -/
theorem transform_output_top_level_witness :
    ∃ rb s n qs, getKey docOk "remote_batch" = .ok rb ∧
      getKey rb "source" = .ok s ∧ getKey rb "name" = .ok n ∧
      docOkOut = JSON.obj [("bloqade.task.batch.RemoteBatch", JSON.obj
        [("source", s), ("name", n), ("tasks", JSON.arr qs)])] :=
  transform_output_top_level rfl

/-- C2: malformed inputs are rejected with no output write: an output
document exists only when the transformation and the loader validation
both succeed (and a write in the trace carries exactly that validated
document); a missing top-level `remote_batch` or `remote_batch.tasks`
key, a task missing one of the required `task_id` / `task_ir` /
`backend` / `task_result_ir` fields, or a loader rejection, each make
the migration error. -/
theorem migrate_rejects_malformed (loadsOk : JSON → Bool) (src : JSON) :
    (∀ out, migrate loadsOk src = .ok out →
      transform src = .ok out ∧ loadsOk out = true) ∧
    (∀ path p c, FileOp.write p c ∈ runMigration loadsOk path src →
      ∃ out, migrate loadsOk src = .ok out ∧ c = serialize out ∧
        loadsOk out = true) ∧
    (JSON.get? src "remote_batch" = none →
      ∃ e, migrate loadsOk src = .error e) ∧
    (∀ rb, getKey src "remote_batch" = .ok rb → JSON.get? rb "tasks" = none →
      ∃ e, migrate loadsOk src = .error e) ∧
    (∀ rb ts tid task bt, getKey src "remote_batch" = .ok rb →
      getKey rb "tasks" = .ok (JSON.arr ts) → JSON.arr [tid, task] ∈ ts →
      getKey task "braket_task" = .ok bt →
      (JSON.get? bt "task_id" = none ∨ JSON.get? bt "task_ir" = none ∨
       JSON.get? bt "backend" = none ∨ JSON.get? bt "task_result_ir" = none) →
      ∃ e, migrate loadsOk src = .error e) ∧
    (∀ out, transform src = .ok out → loadsOk out = false →
      ∃ e, migrate loadsOk src = .error e) := by
  refine ⟨fun out h => migrate_ok_inv h, ?_, ?_, ?_, ?_, ?_⟩
  · intro path p c hmem
    unfold runMigration at hmem
    cases hm : migrate loadsOk src with
    | ok out =>
        rw [hm] at hmem
        simp only [List.mem_cons, List.mem_singleton, List.not_mem_nil] at hmem
        rcases hmem with h | h | h
        · exact FileOp.noConfusion h
        · injection h with hp hc
          exact ⟨out, rfl, hc, (migrate_ok_inv hm).2⟩
        · exact h.elim
    | error e =>
        rw [hm] at hmem
        simp only [List.mem_cons, List.not_mem_nil, or_false] at hmem
        exact FileOp.noConfusion hmem
  · intro h
    apply migrate_error_of_not_ok
    intro out hok
    obtain ⟨rb, _, _, _, _, hrb, _⟩ := transform_ok_inv hok
    rw [get?_eq_some_iff.mpr hrb] at h
    exact Option.noConfusion h
  · intro rb hrb h
    apply migrate_error_of_not_ok
    intro out hok
    obtain ⟨rb', _, _, _, _, hrb', hts', _, _, _, _⟩ := transform_ok_inv hok
    rw [hrb] at hrb'
    injection hrb' with e1
    subst e1
    rw [get?_eq_some_iff.mpr hts'] at h
    exact Option.noConfusion h
  · intro rb ts tid task bt hrb hts hmem hbt hmiss
    apply migrate_error_of_not_ok
    intro out hok
    obtain ⟨rb', ts', qs, s, n, hrb', hts', hconv, _, _, _⟩ := transform_ok_inv hok
    rw [hrb] at hrb'
    injection hrb' with e1
    subst e1
    rw [hts] at hts'
    injection hts' with e2
    injection e2 with e3
    subst e3
    obtain ⟨q, hq⟩ := convertPair_ok_of_mem hconv hmem
    obtain ⟨tid', task', tsk, hpe, htv, _⟩ := convertPair_ok_inv hq
    injection hpe with hlist
    injection hlist with hfst hrest
    injection hrest with hsnd _
    subst hsnd
    obtain ⟨bt', itid, tirW, tir, trW, tr, beW, be, pd, md,
      hbt', htid', htirW', _, htrW', _, hbeW', _, _, _, _⟩ :=
      convertTask_ok_inv htv
    rw [hbt] at hbt'
    injection hbt' with e4
    subst e4
    rcases hmiss with hm | hm | hm | hm
    · rw [get?_eq_some_iff.mpr htid'] at hm
      exact Option.noConfusion hm
    · rw [get?_eq_some_iff.mpr htirW'] at hm
      exact Option.noConfusion hm
    · rw [get?_eq_some_iff.mpr hbeW'] at hm
      exact Option.noConfusion hm
    · rw [get?_eq_some_iff.mpr htrW'] at hm
      exact Option.noConfusion hm
  · intro out htr hl
    exact ⟨Err.schemaError, by simp [migrate, htr, ok_bind, hl]⟩

/-- C2 witness: an input without `remote_batch` errors, and an input
whose task is missing `task_ir` errors, under an accepting loader. -/
theorem migrate_rejects_malformed_witness :
    (∃ e, migrate (fun _ => true) (JSON.obj [("foo", JSON.null)]) = .error e) ∧
    (∃ e, migrate (fun _ => true) docMissingField = .error e) :=
  ⟨(migrate_rejects_malformed (fun _ => true)
      (JSON.obj [("foo", JSON.null)])).2.2.1 rfl,
   (migrate_rejects_malformed (fun _ => true) docMissingField).2.2.2.2.1
      _ _ _ _ _ rfl rfl (List.Mem.head _) rfl (Or.inr (Or.inl rfl))⟩
